import Mathlib

/-!
# Verification of the drift-monitoring sliding-window controller

Shallow embedding of the sliding-window buffering and re-evaluation
controller of the drift-monitoring repository (`src/app.py`, class
`MonitoringService`, plus the `/iterate` route), together with proofs of
the specification's claims about it.

Modelling conventions:
* A pandas `DataFrame` is modelled as a `List R` of rows (`R` abstract);
  row order is the frame's row order.  All frames handled by the core
  carry a contiguous `0..n-1` integer index (`append` is called with
  `ignore_index=True` and every trim is followed by `reset_index`), so
  dropping the index labels `range(0, k)` removes the `k` head rows.
* The statistical engine (`self.monitoring.execute` + `.metrics()`,
  external collaborator) is a parameter: a function from
  (reference rows, current rows, column mapping) to either a failure or a
  list of `(metric name, value, optional labels)` triples.
* Python exceptions are modelled by threading an explicit outcome flag:
  mutations performed before a raise stay performed, and the raise
  propagates to the HTTP route (which has no handler).
* The Prometheus `Gauge` (external collaborator) is modelled by
  `GaugeSt`: label names fixed at construction, a scalar slot for
  unlabeled gauges, an association list from the label-value combination
  to the stored value for labeled ones; calling it with a mismatched
  label shape is a failure, as enforced by the exposition library.
-/

namespace DriftMonitoring

/-- Label dictionary attached to a metric sample: a key-value list
(Python `dict` of strings). -/
abbrev Labels := List (String × String)

/-- One result triple from the statistical engine:
`(metric.name, value, labels)` as yielded by `monitoring.metrics()`. -/
abbrev MetricTriple (V : Type) := String × V × Option Labels

/-- The statistical engine (`ModelMonitoring.execute` followed by
`.metrics()`): takes reference rows, current rows and the column mapping,
and either fails (raises) or returns the metric triples. -/
abbrev Engine (R C V : Type) := List R → List R → C → Except Unit (List (MetricTriple V))

/-- Embedding of the `MonitoringServiceOptions` dataclass
(`src/app.py` lines 30-38).  `reference_path` and `monitors` are carried
for fidelity but play no role in the window logic. -/
structure MonitoringServiceOptions where
  reference_path : String
  min_reference_size : Nat
  use_reference : Bool
  moving_reference : Bool
  window_size : Nat
  calculation_period_sec : Nat
  monitors : List String
deriving Repr

/-- State of one Prometheus gauge as observable through the exposition
interface: the label-name tuple fixed at construction, the single scalar
slot (unlabeled gauges), and the per-label-value-combination store
(labeled gauges). -/
structure GaugeSt (V : Type) where
  labelKeys : List String
  scalar : Option V
  labeled : List (Labels × V)
deriving DecidableEq

/-- The service's metric dictionary `self.metrics` (insertion-ordered
Python dict from metric key to gauge). -/
abbrev Sink (V : Type) := List (String × GaugeSt V)

/-- Mutable state of `MonitoringService`: `self.reference`,
`self.current`, `self.new_rows`, `self.metrics` and `self.hash`
(`src/app.py` lines 70-82). -/
structure MonState (R V : Type) where
  reference : List R
  current : List R
  new_rows : Int
  metrics : Sink V
  hash : String
deriving DecidableEq

/-- Observable actions of one `iterate` call, in program order. -/
inductive Event (R : Type) where
  /-- `self.current.append(new_rows)` of a batch of `n` rows. -/
  | append (n : Nat)
  /-- `app.logger.info("Not enough data for measurement: {cur} of {req}...")`. -/
  | logInfo (cur req : Nat)
  /-- the `drop`/`reset_index` pair removing the `removed` head rows. -/
  | trim (removed : Nat)
  /-- `self.new_rows -= n`. -/
  | decrement (n : Nat)
  /-- `self.monitoring.execute(ref, cur, column_mapping)`. -/
  | execute (ref cur : List R)
deriving DecidableEq

/-- Result of one `iterate` call: the post-call state, the trace of
observable actions, and whether the call returned normally (`ok`) or an
exception escaped it (`error`). -/
inductive Outcome where
  | ok
  | error
deriving DecidableEq

structure IterResult (R V : Type) where
  state : MonState R V
  events : List (Event R)
  outcome : Outcome

/-- `cur.drop(index=[x for x in range(0, k)])` on a frame whose index is
the contiguous `0..n-1`: keep exactly the positions `≥ k`
(`src/app.py` line 108; `reset_index` then restores contiguity). -/
def pandasDropLt {R : Type} (k : Nat) (cur : List R) : List R :=
  ((cur.enum.filter fun p => decide (k ≤ p.1)).map Prod.snd)

/-- Sort a list of label keys, as Python `sorted(labels.keys())`. -/
def sortedKeys (ls : Labels) : List String :=
  (ls.map Prod.fst).insertionSort (fun a b => a ≤ b)

/-- Canonical form of a label dictionary: entries sorted by key, matching
how the exposition library keys a child by the label values taken in
label-name order. -/
def canonLabels (ls : Labels) : Labels :=
  ls.insertionSort (fun a b => a.1 ≤ b.1)

/-- `dict.get` on the metric dictionary. -/
def sinkLookup {V : Type} (sink : Sink V) (key : String) : Option (GaugeSt V) :=
  match sink with
  | [] => none
  | (k, g) :: rest => if k = key then some g else sinkLookup rest key

/-- Replace the value stored under the first occurrence of `key`. -/
def sinkUpdate {V : Type} (sink : Sink V) (key : String) (g : GaugeSt V) : Sink V :=
  match sink with
  | [] => []
  | (k, g0) :: rest =>
      if k = key then (k, g) :: rest else (k, g0) :: sinkUpdate rest key g

/-- Set a value in the per-label-combination store of a gauge,
overwriting the entry for that combination if present. -/
def assocSet {V : Type} (m : List (Labels × V)) (k : Labels) (v : V) : List (Labels × V) :=
  match m with
  | [] => [(k, v)]
  | (k0, v0) :: rest => if k0 = k then (k, v) :: rest else (k0, v0) :: assocSet rest k v

/-- `found.set(value)` / `found.labels(**labels).set(value)` on the gauge
stored under `key` (`src/app.py` lines 127-130).  The exposition library
raises when the shape mismatches: `.set` on a gauge that has label names,
or `.labels` with keys different from the gauge's label names.  The
returned flag is `false` when such an exception is raised. -/
def gaugeSet {V : Type} (sink : Sink V) (key : String) (g : GaugeSt V)
    (value : V) (labels : Option Labels) : Sink V × Bool :=
  match labels with
  | none =>
      if g.labelKeys = [] then
        (sinkUpdate sink key { g with scalar := some value }, true)
      else (sink, false)
  | some ls =>
      if sortedKeys ls = g.labelKeys then
        (sinkUpdate sink key { g with labeled := assocSet g.labeled (canonLabels ls) value }, true)
      else (sink, false)

/-- One iteration of the metric-publishing loop body
(`src/app.py` lines 121-130): prefix the metric name, look the gauge up,
create it on first sight (label names = sorted first-seen label keys,
empty when labels are absent), then set the value.  The flag is `false`
when the underlying gauge call raises; note the freshly created gauge is
inserted into the dictionary before the fallible `set`. -/
def publish {V : Type} (sink : Sink V) (name : String) (value : V)
    (labels : Option Labels) : Sink V × Bool :=
  let key := "evidently:" ++ name
  match sinkLookup sink key with
  | none =>
      let g : GaugeSt V :=
        { labelKeys := match labels with | none => [] | some ls => sortedKeys ls,
          scalar := none, labeled := [] }
      gaugeSet (sink ++ [(key, g)]) key g value labels
  | some g => gaugeSet sink key g value labels

/-- The `for metric, value, labels in self.monitoring.metrics()` loop
(`src/app.py` lines 121-130), processing triples in order; an exception
raised by a gauge call aborts the loop (flag `false`), keeping the
updates already made. -/
def publishLoop {V : Type} (sink : Sink V) : List (MetricTriple V) → Sink V × Bool
  | [] => (sink, true)
  | (n, v, ls) :: rest =>
      let r := publish sink n v ls
      if r.2 then publishLoop r.1 rest else (r.1, false)

/-- Embedding of `MonitoringService.iterate` (`src/app.py` lines 84-130).

Program order: append the batch (`ignore_index=True`), increment
`self.new_rows` by the batch size, then
* if the buffer is below `window_size`: log the informational notice and
  return (no trim, no decrement, no engine call);
* otherwise: drop the head rows down to `window_size`, reset the index,
  decrement `self.new_rows` by the batch size, call the engine, and on
  success publish each returned triple.  An exception from the engine or
  from a gauge call escapes `iterate` (outcome `error`) with the
  mutations made so far kept. -/
def iterate {R C V : Type} (opts : MonitoringServiceOptions) (engine : Engine R C V)
    (cm : C) (st : MonState R V) (new_rows : List R) : IterResult R V :=
  let rows_count := new_rows.length
  let current1 := st.current ++ new_rows
  let nr1 := st.new_rows + (rows_count : Int)
  let current_size := current1.length
  if current_size < opts.window_size then
    { state := { st with current := current1, new_rows := nr1 },
      events := [.append rows_count, .logInfo current_size opts.window_size],
      outcome := .ok }
  else
    let removed := current_size - opts.window_size
    let current2 := pandasDropLt removed current1
    let nr2 := nr1 - (rows_count : Int)
    let evs := [Event.append rows_count, .trim removed, .decrement rows_count,
                .execute st.reference current2]
    match engine st.reference current2 cm with
    | .error _ =>
        { state := { st with current := current2, new_rows := nr2 },
          events := evs, outcome := .error }
    | .ok results =>
        let pub := publishLoop st.metrics results
        { state := { st with current := current2, new_rows := nr2, metrics := pub.1 },
          events := evs,
          outcome := if pub.2 then .ok else .error }

/-- `xs.iloc[:-w, :]` (Python slice `[:-w]`): for `w = 0` the slice
`[:0]` is empty; otherwise all but the last `w` rows. -/
def ilocDropLast {R : Type} (w : Nat) (xs : List R) : List R :=
  if w = 0 then [] else xs.take (xs.length - w)

/-- `xs.iloc[-w:, :]` (Python slice `[-w:]`): for `w = 0` the slice
`[0:]` is the whole frame; otherwise the last `w` rows (all of them when
`w` exceeds the length). -/
def ilocTakeLast {R : Type} (w : Nat) (xs : List R) : List R :=
  if w = 0 then xs else xs.drop (xs.length - w)

/-- Embedding of `MonitoringService.__init__` (`src/app.py` lines 52-82)
as far as the window logic is concerned.  `hashFn` abstracts
`sha256(hash_pandas_object(...))`, a deterministic function of the rows;
`self.hash` is computed over `self.reference` after the split.
With `use_reference`, the reference loses its last `window_size` rows and
they seed `self.current`; otherwise the reference is taken whole and
`self.current` is `DataFrame().reindex_like(reference).dropna()`, a frame
with the reference's columns and zero rows. -/
def initService {R V : Type} (opts : MonitoringServiceOptions)
    (hashFn : List R → String) (reference : List R) : MonState R V :=
  if opts.use_reference then
    let ref := ilocDropLast opts.window_size reference
    { reference := ref,
      current := ilocTakeLast opts.window_size reference,
      new_rows := 0, metrics := [], hash := hashFn ref }
  else
    { reference := reference, current := [],
      new_rows := 0, metrics := [], hash := hashFn reference }

/-- A sequence of `iterate` calls, threading the service state. -/
def runBatches {R C V : Type} (opts : MonitoringServiceOptions) (engine : Engine R C V)
    (cm : C) : MonState R V → List (List R) → MonState R V
  | st, [] => st
  | st, b :: bs => runBatches opts engine cm (iterate opts engine cm st b).state bs

/-- Response of the HTTP layer as seen by the ingestion caller. -/
inductive HttpResult where
  /-- the route returned this body normally. -/
  | success (body : String)
  /-- an unhandled exception escaped the route (the framework turns it
  into an internal server error), or the service was not initialized. -/
  | internalError
deriving DecidableEq

/-- Embedding of the `/iterate` route (`src/app.py` lines 160-172): a
missing service yields a server error; otherwise the request rows are
handed to `MonitoringService.iterate` — with no exception handler, so a
failure inside `iterate` escapes to the framework — and on normal return
the route answers `"ok"`. -/
def routeIterate {R C V : Type} (opts : MonitoringServiceOptions) (engine : Engine R C V)
    (cm : C) (svc : Option (MonState R V)) (item : List R) :
    HttpResult × Option (MonState R V) :=
  match svc with
  | none => (.internalError, none)
  | some st =>
      let r := iterate opts engine cm st item
      match r.outcome with
      | .ok => (.success "ok", some r.state)
      | .error => (.internalError, some r.state)

/-! ## Supporting lemmas -/

theorem enumFrom_filter_ge_all {α : Type} (l : List α) : ∀ i j : Nat, j ≤ i →
    (List.enumFrom i l).filter (fun p => decide (j ≤ p.1)) = List.enumFrom i l := by
  induction l with
  | nil => intro i j h; rfl
  | cons a l ih =>
    intro i j h
    rw [List.enumFrom_cons, List.filter_cons]
    simp only [decide_eq_true_eq, if_pos h]
    rw [ih (i + 1) j (Nat.le_succ_of_le h)]

theorem enumFrom_filter_drop {α : Type} (l : List α) : ∀ i k : Nat,
    ((List.enumFrom i l).filter (fun p => decide (i + k ≤ p.1))).map Prod.snd = l.drop k := by
  induction l with
  | nil => intro i k; simp [List.enumFrom]
  | cons a l ih =>
    intro i k
    rw [List.enumFrom_cons, List.filter_cons]
    cases k with
    | zero =>
      simp only [Nat.add_zero, decide_eq_true_eq, le_refl, if_pos]
      rw [enumFrom_filter_ge_all l (i+1) i (Nat.le_succ i)]
      simp [List.enumFrom_map_snd]
    | succ k =>
      have hne : ¬ (i + (k + 1) ≤ i) := by omega
      simp only [decide_eq_true_eq, if_neg hne]
      rw [show i + (k + 1) = (i + 1) + k from by omega, ih (i + 1) k]
      rfl

/-- Dropping the index labels `range(0, k)` from a `0..n-1`-indexed frame
is dropping the `k` head rows. -/
theorem pandasDropLt_eq_drop {R : Type} (k : Nat) (cur : List R) :
    pandasDropLt k cur = cur.drop k := by
  have h := enumFrom_filter_drop cur 0 k
  simpa [pandasDropLt, List.enum] using h

/-- Shape of an `iterate` call on the warm-up path. -/
theorem iterate_warmup {R C V : Type} (opts : MonitoringServiceOptions)
    (engine : Engine R C V) (cm : C) (st : MonState R V) (batch : List R)
    (h : (st.current ++ batch).length < opts.window_size) :
    iterate opts engine cm st batch =
      { state := { st with current := st.current ++ batch,
                           new_rows := st.new_rows + (batch.length : Int) },
        events := [.append batch.length,
                   .logInfo (st.current ++ batch).length opts.window_size],
        outcome := .ok } := by
  simp only [iterate, if_pos h]

/-- Shape of an `iterate` call on the evaluation path: the events emitted
and the buffer/counter updates are the same whether the engine succeeds
or fails. -/
theorem iterate_eval {R C V : Type} (opts : MonitoringServiceOptions)
    (engine : Engine R C V) (cm : C) (st : MonState R V) (batch : List R)
    (h : opts.window_size ≤ (st.current ++ batch).length) :
    (iterate opts engine cm st batch).events =
      [.append batch.length,
       .trim ((st.current ++ batch).length - opts.window_size),
       .decrement batch.length,
       .execute st.reference
         ((st.current ++ batch).drop ((st.current ++ batch).length - opts.window_size))] ∧
    (iterate opts engine cm st batch).state.current =
      (st.current ++ batch).drop ((st.current ++ batch).length - opts.window_size) ∧
    (iterate opts engine cm st batch).state.new_rows = st.new_rows ∧
    (iterate opts engine cm st batch).state.reference = st.reference ∧
    (iterate opts engine cm st batch).state.hash = st.hash := by
  have hnot : ¬ (st.current ++ batch).length < opts.window_size := not_lt.mpr h
  simp only [iterate, if_neg hnot, pandasDropLt_eq_drop]
  cases hE : engine st.reference
      ((st.current ++ batch).drop ((st.current ++ batch).length - opts.window_size)) cm with
  | error e => refine ⟨rfl, rfl, by push_cast; ring, rfl, rfl⟩
  | ok results => refine ⟨rfl, rfl, by push_cast; ring, rfl, rfl⟩

/-- After any single `iterate` call the buffer holds at most
`window_size` rows. -/
theorem iterate_current_le {R C V : Type} (opts : MonitoringServiceOptions)
    (engine : Engine R C V) (cm : C) (st : MonState R V) (batch : List R) :
    (iterate opts engine cm st batch).state.current.length ≤ opts.window_size := by
  rcases lt_or_le (st.current ++ batch).length opts.window_size with h | h
  · rw [iterate_warmup opts engine cm st batch h]
    exact le_of_lt h
  · rw [(iterate_eval opts engine cm st batch h).2.1]
    simp only [List.length_drop]
    omega

/-- `iterate` never decreases the pending-rows counter. -/
theorem iterate_new_rows_mono {R C V : Type} (opts : MonitoringServiceOptions)
    (engine : Engine R C V) (cm : C) (st : MonState R V) (batch : List R) :
    st.new_rows ≤ (iterate opts engine cm st batch).state.new_rows := by
  rcases lt_or_le (st.current ++ batch).length opts.window_size with h | h
  · rw [iterate_warmup opts engine cm st batch h]
    simp only []
    omega
  · rw [(iterate_eval opts engine cm st batch h).2.2.1]

/-- `runBatches` never decreases the pending-rows counter. -/
theorem runBatches_new_rows_mono {R C V : Type} (opts : MonitoringServiceOptions)
    (engine : Engine R C V) (cm : C) (st : MonState R V) (bs : List (List R)) :
    st.new_rows ≤ (runBatches opts engine cm st bs).new_rows := by
  induction bs generalizing st with
  | nil => exact le_refl _
  | cons b bs ih =>
    calc st.new_rows ≤ (iterate opts engine cm st b).state.new_rows :=
          iterate_new_rows_mono opts engine cm st b
      _ ≤ (runBatches opts engine cm (iterate opts engine cm st b).state bs).new_rows :=
          ih _

/-- `Event.execute` recognizer, for counting engine invocations. -/
def isExecute {R : Type} : Event R → Bool
  | .execute _ _ => true
  | _ => false

/-- `Event.decrement` recognizer. -/
def isDecrement {R : Type} : Event R → Bool
  | .decrement _ => true
  | _ => false

/-! ## Concrete fixtures for witnesses and counterexamples -/

/-- The configuration of `rebuild/utils.py:create_config` with the window
size left as a parameter. -/
def optsW (w : Nat) : MonitoringServiceOptions :=
  { reference_path := "data/reference_1.csv", min_reference_size := 30,
    use_reference := true, moving_reference := false,
    window_size := w, calculation_period_sec := 10,
    monitors := ["data_drift", "concept_drift", "regression_performance"] }

/-- A statistical engine that always succeeds and reports no metrics. -/
def engineOk : Engine Nat Unit Unit := fun _ _ _ => .ok []

/-- A statistical engine that always raises. -/
def engineFail : Engine Nat Unit Unit := fun _ _ _ => .error ()

/-- A service state with the given reference and current rows, a zero
pending counter and no metrics yet. -/
def mkState (ref cur : List Nat) : MonState Nat Unit :=
  { reference := ref, current := cur, new_rows := 0, metrics := [], hash := "h" }

/-- A concrete stand-in for the reference fingerprint computation: any
deterministic function of the rows. -/
def hashFn0 (rows : List Nat) : String := toString rows.length

/-- The trim of the evaluation path viewed as a standalone operation on
the buffer: drop the index labels `range(0, current_length - target)`
from the `0..n-1`-indexed frame, then reset the index
(`src/app.py` lines 105-110). -/
def trim {R : Type} (target : Nat) (cur : List R) : List R :=
  pandasDropLt (cur.length - target) cur

/-- `runBatches` keeps the buffer within `window_size` whenever at least
one call has been made. -/
theorem runBatches_current_le_of_ne_nil {R C V : Type}
    (opts : MonitoringServiceOptions) (engine : Engine R C V) (cm : C) :
    ∀ (bs : List (List R)) (st : MonState R V), bs ≠ [] →
      (runBatches opts engine cm st bs).current.length ≤ opts.window_size := by
  intro bs
  induction bs with
  | nil => intro st h; exact absurd rfl h
  | cons b bs ih =>
    intro st h
    cases bs with
    | nil =>
      simpa [runBatches] using iterate_current_le opts engine cm st b
    | cons b2 bs2 =>
      exact ih _ (by simp)

/-! ## Claims -/

/-- C1: for every `iterate(new_rows)` call, if the buffer size after the
append is strictly below `window_size` then the engine is not invoked,
the informational notice stating current vs. required size is logged, and
the pending counter is left untouched by the gate (no decrement, so it
still carries the just-appended rows: `new_rows` becomes the old value
plus the batch size, per the append contract); if the size after the
append is at least `window_size`, the engine is invoked exactly once and
the buffer holds exactly `window_size` rows immediately after the
call. -/
theorem iterate_gating {R C V : Type} (opts : MonitoringServiceOptions)
    (engine : Engine R C V) (cm : C) (st : MonState R V) (batch : List R) :
    ((st.current ++ batch).length < opts.window_size →
        (iterate opts engine cm st batch).events.countP isExecute = 0 ∧
        Event.logInfo (st.current ++ batch).length opts.window_size ∈
          (iterate opts engine cm st batch).events ∧
        (iterate opts engine cm st batch).events.countP isDecrement = 0 ∧
        (iterate opts engine cm st batch).state.new_rows =
          st.new_rows + (batch.length : Int)) ∧
    (opts.window_size ≤ (st.current ++ batch).length →
        (iterate opts engine cm st batch).events.countP isExecute = 1 ∧
        (iterate opts engine cm st batch).state.current.length = opts.window_size) := by
  constructor
  · intro h
    rw [iterate_warmup opts engine cm st batch h]
    refine ⟨by simp [List.countP_cons, isExecute], by simp, by
      simp [List.countP_cons, isDecrement], rfl⟩
  · intro h
    obtain ⟨hev, hcur, -, -, -⟩ := iterate_eval opts engine cm st batch h
    refine ⟨?_, ?_⟩
    · rw [hev]; simp [List.countP_cons, isExecute]
    · rw [hcur]; simp only [List.length_drop]; omega

/-- Witness for C1 at the spec's warm-up scenario (`window_size = 30`):
a 10-row buffer plus a 15-row batch stays below the window and triggers
nothing, while a 25-row buffer plus a 10-row batch triggers exactly one
evaluation and leaves exactly 30 rows. -/
theorem iterate_gating_witness :
    ((iterate (optsW 30) engineOk () (mkState [] (List.range 10))
        (List.range 15)).events.countP isExecute = 0 ∧
      Event.logInfo ((mkState [] (List.range 10)).current ++ List.range 15).length
          (optsW 30).window_size ∈
        (iterate (optsW 30) engineOk () (mkState [] (List.range 10))
          (List.range 15)).events ∧
      (iterate (optsW 30) engineOk () (mkState [] (List.range 10))
        (List.range 15)).events.countP isDecrement = 0 ∧
      (iterate (optsW 30) engineOk () (mkState [] (List.range 10))
        (List.range 15)).state.new_rows =
        (mkState [] (List.range 10)).new_rows + ((List.range 15).length : Int)) ∧
    ((iterate (optsW 30) engineOk () (mkState [] (List.range 25))
        (List.range 10)).events.countP isExecute = 1 ∧
      (iterate (optsW 30) engineOk () (mkState [] (List.range 25))
        (List.range 10)).state.current.length = (optsW 30).window_size) :=
  ⟨(iterate_gating (optsW 30) engineOk () (mkState [] (List.range 10))
      (List.range 15)).1 (by decide),
   (iterate_gating (optsW 30) engineOk () (mkState [] (List.range 25))
      (List.range 10)).2 (by decide)⟩

/-- C2: trimming removes exactly `current_length - target_size` rows,
always the oldest (head) rows, preserving the relative order of the
survivors — the pre-trim buffer is exactly the removed head prefix
followed by the untouched surviving tail; `[r1, r2, r3]` trimmed to 2 is
`[r2, r3]`; and an `iterate` call appending 45 rows to an empty buffer
with `window_size = 30` retains exactly the last 30 of the 45, discarding
the oldest 15 members of the just-appended batch. -/
theorem trim_head_removal {R : Type} (cur : List R) (target : Nat) (r1 r2 r3 : R) :
    cur.take (cur.length - target) ++ trim target cur = cur ∧
    (trim target cur).length = cur.length - (cur.length - target) ∧
    trim 2 [r1, r2, r3] = [r2, r3] ∧
    (iterate (optsW 30) engineOk () (mkState [] []) (List.range 45)).state.current =
      (List.range 45).drop 15 := by
  refine ⟨?_, ?_, ?_, ?_⟩
  · rw [trim, pandasDropLt_eq_drop]
    exact List.take_append_drop _ _
  · rw [trim, pandasDropLt_eq_drop, List.length_drop]
  · rw [trim, pandasDropLt_eq_drop]
    rfl
  · have h : (optsW 30).window_size ≤
        ((mkState [] []).current ++ List.range 45).length := by decide
    have := (iterate_eval (optsW 30) engineOk () (mkState [] []) (List.range 45) h).2.1
    rw [this]
    rfl

/-- C3: starting from a freshly constructed service, after every
`iterate` call of every call sequence — in particular immediately after
every trim, i.e. at the end of every evaluation cycle — the buffer holds
at most `window_size` rows, regardless of batch sizes; moreover a single
call on the evaluation path leaves exactly `window_size` rows. -/
theorem buffer_bounded {R C V : Type} (opts : MonitoringServiceOptions)
    (engine : Engine R C V) (cm : C) (hashFn : List R → String)
    (reference : List R) (bs : List (List R)) (hne : bs ≠ []) :
    (runBatches opts engine cm
        (initService opts hashFn reference : MonState R V) bs).current.length ≤
      opts.window_size ∧
    (∀ (st : MonState R V) (batch : List R),
        opts.window_size ≤ (st.current ++ batch).length →
        (iterate opts engine cm st batch).state.current.length = opts.window_size) := by
  refine ⟨runBatches_current_le_of_ne_nil opts engine cm bs _ hne, ?_⟩
  intro st batch h
  rw [(iterate_eval opts engine cm st batch h).2.1]
  simp only [List.length_drop]
  omega

/-- Witness for C3: three calls (10, 15, then 20 rows) against a
`window_size = 30` service seeded from a 100-row reference leave at most
30 rows, and the last call leaves exactly 30. -/
theorem buffer_bounded_witness :
    (runBatches (optsW 30) engineOk ()
        (initService (optsW 30) hashFn0 (List.range 100) : MonState Nat Unit)
        [List.range 10, List.range 15, List.range 20]).current.length ≤
      (optsW 30).window_size ∧
    (∀ (st : MonState Nat Unit) (batch : List Nat),
        (optsW 30).window_size ≤ (st.current ++ batch).length →
        (iterate (optsW 30) engineOk () st batch).state.current.length =
          (optsW 30).window_size) :=
  buffer_bounded (optsW 30) engineOk () hashFn0 (List.range 100)
    [List.range 10, List.range 15, List.range 20] (by decide)

/-- C4 (counterexample): in the source the decrement of the pending
counter happens BEFORE the engine invocation, not after it.  On a
concrete evaluation-path call the trace places `decrement` strictly
before `execute` (both occur), refuting the claimed order. -/
theorem eval_order_counterexample :
    (iterate (optsW 2) engineOk () (mkState [] [0]) [1, 2]).events.findIdx isDecrement <
      (iterate (optsW 2) engineOk () (mkState [] [0]) [1, 2]).events.findIdx isExecute ∧
    (iterate (optsW 2) engineOk () (mkState [] [0]) [1, 2]).events.findIdx isExecute <
      (iterate (optsW 2) engineOk () (mkState [] [0]) [1, 2]).events.length := by
  decide

/-- C4 (amended): on the evaluation path the operations occur in the
order: append, trim the buffer to `window_size`, decrement the pending
counter by exactly the rows appended by the triggering call, then invoke
the statistical engine on the reference and the trimmed buffer (together
with the column mapping) — the decrement happens BEFORE the engine
invocation. -/
theorem eval_order {R C V : Type} (opts : MonitoringServiceOptions)
    (engine : Engine R C V) (cm : C) (st : MonState R V) (batch : List R)
    (h : opts.window_size ≤ (st.current ++ batch).length) :
    (iterate opts engine cm st batch).events =
      [.append batch.length,
       .trim ((st.current ++ batch).length - opts.window_size),
       .decrement batch.length,
       .execute st.reference
         ((st.current ++ batch).drop ((st.current ++ batch).length - opts.window_size))] :=
  (iterate_eval opts engine cm st batch h).1

/-- Witness for C4 (amended) at a concrete evaluation-path call. -/
theorem eval_order_witness :
    (iterate (optsW 2) engineOk () (mkState [9] [0]) [1, 2]).events =
      [.append 2, .trim 1, .decrement 2,
       .execute (mkState [9] [0]).reference
         (((mkState [9] [0]).current ++ [1, 2]).drop
           (((mkState [9] [0]).current ++ [1, 2]).length - (optsW 2).window_size))] := by
  have h := eval_order (optsW 2) engineOk () (mkState [9] [0]) [1, 2] (by decide)
  simpa using h

/-- C5: if the statistical engine raises during an evaluation, the buffer
state is neither corrupted nor rolled back: the trim was applied before
the invocation, so after the failure the buffer holds exactly the
`window_size` most recent rows (the post-trim suffix of the appended
buffer), the evicted head rows stay evicted, and the metric dictionary is
untouched for that cycle; the failure escapes the call. -/
theorem engine_failure_keeps_trim {R C V : Type} (opts : MonitoringServiceOptions)
    (engine : Engine R C V) (cm : C) (st : MonState R V) (batch : List R)
    (h : opts.window_size ≤ (st.current ++ batch).length)
    (hfail : engine st.reference
        ((st.current ++ batch).drop ((st.current ++ batch).length - opts.window_size)) cm =
      .error ()) :
    (iterate opts engine cm st batch).state.current =
      (st.current ++ batch).drop ((st.current ++ batch).length - opts.window_size) ∧
    (iterate opts engine cm st batch).state.current.length = opts.window_size ∧
    (iterate opts engine cm st batch).state.metrics = st.metrics ∧
    (iterate opts engine cm st batch).outcome = .error := by
  have hnot : ¬ (st.current ++ batch).length < opts.window_size := not_lt.mpr h
  simp only [iterate, if_neg hnot, pandasDropLt_eq_drop, hfail, List.length_drop,
    and_true, true_and]
  omega

/-- Witness for C5: a failing engine on a full window leaves the trimmed
buffer in place, the metric dictionary untouched, and an error escaping. -/
theorem engine_failure_keeps_trim_witness :
    (iterate (optsW 2) engineFail () (mkState [9] [0, 1]) [2]).state.current =
      (((mkState [9] [0, 1]).current ++ [2]).drop
        (((mkState [9] [0, 1]).current ++ [2]).length - (optsW 2).window_size)) ∧
    (iterate (optsW 2) engineFail () (mkState [9] [0, 1]) [2]).state.current.length =
      (optsW 2).window_size ∧
    (iterate (optsW 2) engineFail () (mkState [9] [0, 1]) [2]).state.metrics =
      (mkState [9] [0, 1]).metrics ∧
    (iterate (optsW 2) engineFail () (mkState [9] [0, 1]) [2]).outcome = .error :=
  engine_failure_keeps_trim (optsW 2) engineFail () (mkState [9] [0, 1]) [2]
    (by decide) rfl

/-- C6 (counterexample): an engine failure is NOT invisible to the
ingestion caller.  The route has no exception handler, so on a concrete
full-window call with a failing engine the HTTP layer answers with an
internal server error instead of the normal `"ok"` acknowledgment. -/
theorem failure_visible_counterexample :
    (routeIterate (optsW 1) engineFail () (some (mkState [5] [0])) [7]).1 =
      HttpResult.internalError ∧
    HttpResult.internalError ≠ HttpResult.success "ok" := by
  decide

/-- C6 (amended): a failure raised by the statistical engine during
evaluation is not caught anywhere in the service or the route: it
escapes `iterate`, so the ingestion call does NOT return the normal
success acknowledgment but an internal server error; the buffer keeps
its trimmed contents and the pending counter its balanced value, so the
failure is additionally observable through the absence of updated
metrics. -/
theorem failure_visible_to_caller {R C V : Type} (opts : MonitoringServiceOptions)
    (engine : Engine R C V) (cm : C) (st : MonState R V) (batch : List R)
    (h : opts.window_size ≤ (st.current ++ batch).length)
    (hfail : engine st.reference
        ((st.current ++ batch).drop ((st.current ++ batch).length - opts.window_size)) cm =
      .error ()) :
    routeIterate opts engine cm (some st) batch =
      (HttpResult.internalError,
       some { st with current :=
          (st.current ++ batch).drop ((st.current ++ batch).length - opts.window_size) }) := by
  have hnot : ¬ (st.current ++ batch).length < opts.window_size := not_lt.mpr h
  simp only [routeIterate, iterate, if_neg hnot, pandasDropLt_eq_drop, hfail]
  simp [add_sub_cancel_right]

/-- Witness for C6 (amended) at a concrete failing call. -/
theorem failure_visible_to_caller_witness :
    routeIterate (optsW 1) engineFail () (some (mkState [5] [0])) [7] =
      (HttpResult.internalError,
       some { mkState [5] [0] with current :=
          (((mkState [5] [0]).current ++ [7]).drop
            (((mkState [5] [0]).current ++ [7]).length - (optsW 1).window_size)) }) :=
  failure_visible_to_caller (optsW 1) engineFail () (mkState [5] [0]) [7]
    (by decide) rfl

/-- C7 (counterexample): the construction claim fails at
`window_size = 0` (an `n > window_size` configuration it quantifies
over): the Python slice `iloc[:-0]` is empty and `iloc[-0:]` is the whole
frame, so a one-row dataset yields an EMPTY reference (the claim demands
all `n - 0 = 1` rows) and a fully seeded window (the claim demands the
last `0` rows, i.e. none). -/
theorem initService_zero_window_counterexample :
    (optsW 0).use_reference = true ∧
    (optsW 0).window_size < ([0] : List Nat).length ∧
    (initService (optsW 0) hashFn0 [0] : MonState Nat Unit).reference ≠ [0] ∧
    (initService (optsW 0) hashFn0 [0] : MonState Nat Unit).current ≠ [] := by
  decide

/-- C7 (amended): at construction with `use_reference = true`, a positive
`window_size` and a historical dataset of `n` rows with
`n > window_size`, the reference is exactly the first `n - window_size`
rows in order, the window buffer is seeded with exactly the last
`window_size` rows in order, and the fingerprint is computed over the
reference rows only; with `use_reference = false`, the reference is the
entire dataset unmodified, the window buffer starts with zero rows, and
the fingerprint is computed over the whole dataset. -/
theorem initService_split {R V : Type} (opts : MonitoringServiceOptions)
    (hashFn : List R → String) (rows : List R) :
    (opts.use_reference = true → 0 < opts.window_size →
        opts.window_size < rows.length →
        (initService opts hashFn rows : MonState R V).reference =
          rows.take (rows.length - opts.window_size) ∧
        (initService opts hashFn rows : MonState R V).current =
          rows.drop (rows.length - opts.window_size) ∧
        (initService opts hashFn rows : MonState R V).current.length =
          opts.window_size ∧
        (initService opts hashFn rows : MonState R V).hash =
          hashFn (rows.take (rows.length - opts.window_size))) ∧
    (opts.use_reference = false →
        (initService opts hashFn rows : MonState R V).reference = rows ∧
        (initService opts hashFn rows : MonState R V).current = [] ∧
        (initService opts hashFn rows : MonState R V).hash = hashFn rows) := by
  constructor
  · intro hu hw hn
    have hw0 : opts.window_size ≠ 0 := Nat.pos_iff_ne_zero.mp hw
    simp only [initService, hu, if_true, ilocDropLast, ilocTakeLast, if_neg hw0,
      List.length_drop, true_and, and_true]
    omega
  · intro hu
    simp [initService, hu]

/-- Witness for C7 (amended) at the spec's scenario: `window_size = 30`,
a 100-row dataset; the reference is rows 0-69, the window rows 70-99, the
fingerprint covers rows 0-69 only; and a `use_reference = false`
construction takes the whole dataset with an empty window. -/
theorem initService_split_witness :
    ((initService (optsW 30) hashFn0 (List.range 100) : MonState Nat Unit).reference =
        (List.range 100).take ((List.range 100).length - (optsW 30).window_size) ∧
      (initService (optsW 30) hashFn0 (List.range 100) : MonState Nat Unit).current =
        (List.range 100).drop ((List.range 100).length - (optsW 30).window_size) ∧
      (initService (optsW 30) hashFn0 (List.range 100) : MonState Nat Unit).current.length =
        (optsW 30).window_size ∧
      (initService (optsW 30) hashFn0 (List.range 100) : MonState Nat Unit).hash =
        hashFn0 ((List.range 100).take ((List.range 100).length - (optsW 30).window_size))) ∧
    ((initService { optsW 30 with use_reference := false } hashFn0
          (List.range 100) : MonState Nat Unit).reference = List.range 100 ∧
      (initService { optsW 30 with use_reference := false } hashFn0
          (List.range 100) : MonState Nat Unit).current = [] ∧
      (initService { optsW 30 with use_reference := false } hashFn0
          (List.range 100) : MonState Nat Unit).hash = hashFn0 (List.range 100)) :=
  ⟨(initService_split (optsW 30) hashFn0 (List.range 100)).1 rfl (by decide) (by decide),
   (initService_split { optsW 30 with use_reference := false } hashFn0
      (List.range 100)).2 rfl⟩

/-- C8 (counterexample): an empty batch is NOT always a no-op.  On a
buffer already at `window_size` the size check passes, so the call runs a
full evaluation cycle: the engine is invoked (refuting "triggers no
evaluation ... including a buffer already at window_size"). -/
theorem empty_batch_counterexample :
    (mkState [] [0]).current.length = (optsW 1).window_size ∧
    ¬ ((iterate (optsW 1) engineOk () (mkState [] [0]) []).events.countP isExecute = 0) := by
  decide

/-- C8 (amended): an empty batch never changes the buffer rows beyond the
trim (so for any buffer at or below `window_size` the rows are
unchanged) and never changes the pending counter; below `window_size` the
whole state is untouched and no evaluation runs, but at or above
`window_size` the call does trigger exactly one engine invocation. -/
theorem empty_batch_behavior {R C V : Type} (opts : MonitoringServiceOptions)
    (engine : Engine R C V) (cm : C) (st : MonState R V) :
    (iterate opts engine cm st []).state.new_rows = st.new_rows ∧
    (iterate opts engine cm st []).state.current =
      st.current.drop (st.current.length - opts.window_size) ∧
    (st.current.length < opts.window_size →
        (iterate opts engine cm st []).state = st ∧
        (iterate opts engine cm st []).events.countP isExecute = 0) ∧
    (opts.window_size ≤ st.current.length →
        (iterate opts engine cm st []).events.countP isExecute = 1) := by
  have hlen : (st.current ++ ([] : List R)).length = st.current.length := by simp
  refine ⟨?_, ?_, ?_, ?_⟩
  · rcases lt_or_le st.current.length opts.window_size with h | h
    · rw [iterate_warmup opts engine cm st [] (by simpa using h)]
      simp
    · exact (iterate_eval opts engine cm st [] (by simpa using h)).2.2.1
  · rcases lt_or_le st.current.length opts.window_size with h | h
    · rw [iterate_warmup opts engine cm st [] (by simpa using h)]
      have : st.current.length - opts.window_size = 0 := by omega
      simp [this]
    · have := (iterate_eval opts engine cm st [] (by simpa using h)).2.1
      simpa using this
  · intro h
    rw [iterate_warmup opts engine cm st [] (by simpa using h)]
    constructor
    · simp
    · simp [List.countP_cons, isExecute]
  · intro h
    rw [(iterate_eval opts engine cm st [] (by simpa using h)).1]
    simp [List.countP_cons, isExecute]

/-- Witness for C8 (amended): an empty batch on a 1-row buffer below a
2-row window leaves the state untouched and runs nothing. -/
theorem empty_batch_behavior_witness :
    (iterate (optsW 2) engineOk () (mkState [] [0]) []).state.new_rows =
      (mkState [] [0]).new_rows ∧
    (iterate (optsW 2) engineOk () (mkState [] [0]) []).state = mkState [] [0] ∧
    (iterate (optsW 2) engineOk () (mkState [] [0]) []).events.countP isExecute = 0 :=
  ⟨(empty_batch_behavior (optsW 2) engineOk () (mkState [] [0])).1,
   ((empty_batch_behavior (optsW 2) engineOk () (mkState [] [0])).2.2.1 (by decide)).1,
   ((empty_batch_behavior (optsW 2) engineOk () (mkState [] [0])).2.2.1 (by decide)).2⟩

/-- C10: an `iterate` call that triggers an evaluation leaves the pending
counter exactly where it was (the append's increment is cancelled by the
decrement); a warm-up call adds the batch size without ever deducting it;
consequently the counter never decreases across any call sequence, and
once positive it stays positive in every subsequent reachable state. -/
theorem pending_rows_balance {R C V : Type} (opts : MonitoringServiceOptions)
    (engine : Engine R C V) (cm : C) (st : MonState R V) (batch : List R)
    (bs : List (List R)) :
    (opts.window_size ≤ (st.current ++ batch).length →
        (iterate opts engine cm st batch).state.new_rows = st.new_rows) ∧
    ((st.current ++ batch).length < opts.window_size →
        (iterate opts engine cm st batch).state.new_rows =
          st.new_rows + (batch.length : Int)) ∧
    st.new_rows ≤ (runBatches opts engine cm st bs).new_rows ∧
    (0 < st.new_rows → 0 < (runBatches opts engine cm st bs).new_rows) := by
  refine ⟨?_, ?_, runBatches_new_rows_mono opts engine cm st bs, ?_⟩
  · intro h
    exact (iterate_eval opts engine cm st batch h).2.2.1
  · intro h
    rw [iterate_warmup opts engine cm st batch h]
  · intro h
    exact lt_of_lt_of_le h (runBatches_new_rows_mono opts engine cm st bs)

/-- Witness for C10: a warm-up call (5 rows into a 30-row window) leaves
the counter at 5; a later triggering call (30 more rows) leaves it at 5
again — never back to zero. -/
theorem pending_rows_balance_witness :
    ((optsW 30).window_size ≤
        ((mkState [] (List.range 25)).current ++ List.range 30).length ∧
      (iterate (optsW 30) engineOk () (mkState [] (List.range 25))
        (List.range 30)).state.new_rows = (mkState [] (List.range 25)).new_rows) ∧
    (((mkState [] []).current ++ List.range 5).length < (optsW 30).window_size ∧
      (iterate (optsW 30) engineOk () (mkState [] [])
        (List.range 5)).state.new_rows =
        (mkState [] []).new_rows + ((List.range 5).length : Int)) :=
  ⟨⟨by decide,
    (pending_rows_balance (optsW 30) engineOk () (mkState [] (List.range 25))
      (List.range 30) []).1 (by decide)⟩,
   ⟨by decide,
    (pending_rows_balance (optsW 30) engineOk () (mkState [] [])
      (List.range 5) []).2.1 (by decide)⟩⟩

theorem sinkUpdate_mapFst {V : Type} (sink : Sink V) (key : String) (g : GaugeSt V) :
    (sinkUpdate sink key g).map Prod.fst = sink.map Prod.fst := by
  induction sink with
  | nil => rfl
  | cons p rest ih =>
    obtain ⟨k, g0⟩ := p
    by_cases h : k = key
    · simp [sinkUpdate, h]
    · simp [sinkUpdate, h, ih]

theorem sinkLookup_sinkUpdate_self {V : Type} (sink : Sink V) (key : String)
    (g g0 : GaugeSt V) (h : sinkLookup sink key = some g0) :
    sinkLookup (sinkUpdate sink key g) key = some g := by
  induction sink with
  | nil => simp [sinkLookup] at h
  | cons p rest ih =>
    obtain ⟨k, g1⟩ := p
    by_cases hk : k = key
    · simp [sinkUpdate, sinkLookup, hk]
    · simp only [sinkUpdate, if_neg hk, sinkLookup]
      apply ih
      simpa [sinkLookup, hk] using h

theorem sinkLookup_append_self {V : Type} (sink : Sink V) (key : String) (g : GaugeSt V)
    (h : sinkLookup sink key = none) :
    sinkLookup (sink ++ [(key, g)]) key = some g := by
  induction sink with
  | nil => simp [sinkLookup]
  | cons p rest ih =>
    obtain ⟨k, g1⟩ := p
    have hk : k ≠ key := by
      intro he
      simp [sinkLookup, he] at h
    simp only [List.cons_append, sinkLookup, if_neg hk]
    apply ih
    simpa [sinkLookup, hk] using h

theorem sinkUpdate_append_self {V : Type} (sink : Sink V) (key : String)
    (g g2 : GaugeSt V) (h : sinkLookup sink key = none) :
    sinkUpdate (sink ++ [(key, g)]) key g2 = sink ++ [(key, g2)] := by
  induction sink with
  | nil => simp [sinkUpdate]
  | cons p rest ih =>
    obtain ⟨k, g1⟩ := p
    have hk : k ≠ key := by
      intro he
      simp [sinkLookup, he] at h
    simp only [List.cons_append, sinkUpdate, if_neg hk, List.cons.injEq, true_and]
    exact ih (by simpa [sinkLookup, hk] using h)

/-- C9: for every metric name, the gauge identity is created exactly once
at the first publish of that name, with its label-key set fixed at that
moment as the sorted keys of the first-seen labels (empty when labels are
absent) and the new entry appended to the dictionary; every later publish
for the same name reuses that entry (dictionary domain unchanged, label
keys immutable no matter what the call does), with unlabeled publishes
overwriting the single scalar slot and labeled publishes overwriting the
value stored for that specific label-value combination. -/
theorem publish_metric_identity {V : Type} (sink : Sink V) (name : String) (v : V)
    (labels : Option Labels) :
    (sinkLookup sink ("evidently:" ++ name) = none →
        (labels = none →
           publish sink name v labels =
             (sink ++ [("evidently:" ++ name,
                { labelKeys := [], scalar := some v, labeled := [] })], true)) ∧
        (∀ ls, labels = some ls →
           publish sink name v labels =
             (sink ++ [("evidently:" ++ name,
                { labelKeys := sortedKeys ls, scalar := none,
                  labeled := [(canonLabels ls, v)] })], true))) ∧
    (∀ g, sinkLookup sink ("evidently:" ++ name) = some g →
        ((publish sink name v labels).1.map Prod.fst = sink.map Prod.fst) ∧
        (labels = none → g.labelKeys = [] →
           publish sink name v labels =
             (sinkUpdate sink ("evidently:" ++ name) { g with scalar := some v }, true)) ∧
        (∀ ls, labels = some ls → sortedKeys ls = g.labelKeys →
           publish sink name v labels =
             (sinkUpdate sink ("evidently:" ++ name)
                { g with labeled := assocSet g.labeled (canonLabels ls) v }, true)) ∧
        (∀ g2, sinkLookup (publish sink name v labels).1 ("evidently:" ++ name) = some g2 →
           g2.labelKeys = g.labelKeys)) := by
  constructor
  · intro hnone
    constructor
    · rintro rfl
      simp only [publish, hnone, gaugeSet]
      rw [sinkUpdate_append_self sink _ _ _ hnone]
      simp
    · rintro ls rfl
      simp only [publish, hnone, gaugeSet]
      rw [sinkUpdate_append_self sink _ _ _ hnone]
      simp [assocSet]
  · intro g hsome
    refine ⟨?_, ?_, ?_, ?_⟩
    · rcases labels with _ | ls
      · simp only [publish, hsome, gaugeSet]
        by_cases h : g.labelKeys = []
        · simp [h, sinkUpdate_mapFst]
        · simp [h]
      · simp only [publish, hsome, gaugeSet]
        by_cases h : sortedKeys ls = g.labelKeys
        · simp [h, sinkUpdate_mapFst]
        · simp [h]
    · rintro rfl hk
      simp only [publish, hsome, gaugeSet, if_pos hk]
    · rintro ls rfl hk
      simp only [publish, hsome, gaugeSet, if_pos hk]
    · intro g2 hg2
      rcases labels with _ | ls
      · by_cases h : g.labelKeys = []
        · simp only [publish, hsome, gaugeSet, if_pos h] at hg2
          rw [sinkLookup_sinkUpdate_self sink _ _ g hsome] at hg2
          cases hg2
          rfl
        · simp only [publish, hsome, gaugeSet, if_neg h] at hg2
          cases hg2
          rfl
      · by_cases h : sortedKeys ls = g.labelKeys
        · simp only [publish, hsome, gaugeSet, if_pos h] at hg2
          rw [sinkLookup_sinkUpdate_self sink _ _ g hsome] at hg2
          cases hg2
          rfl
        · simp only [publish, hsome, gaugeSet, if_neg h] at hg2
          cases hg2
          rfl

/-- Witness for C9: a first labeled publish of the name `x` into an empty
dictionary creates exactly one gauge, keyed by the sorted label keys of
the first-seen labels and holding the value under that label
combination. -/
theorem publish_metric_identity_witness :
    publish ([] : Sink Nat) "x" 7 (some [("b", "1"), ("a", "2")]) =
      ([] ++ [("evidently:" ++ "x",
        { labelKeys := sortedKeys [("b", "1"), ("a", "2")], scalar := none,
          labeled := [(canonLabels [("b", "1"), ("a", "2")], 7)] })], true) :=
  ((publish_metric_identity ([] : Sink Nat) "x" 7
      (some [("b", "1"), ("a", "2")])).1 rfl).2 [("b", "1"), ("a", "2")] rfl

end DriftMonitoring
